import Mathlib

set_option autoImplicit false

namespace Compio

/-- Thread identity: an opaque, comparable, hashable value that uniquely
identifies the calling thread; modelled as a natural number. -/
abbrev ThreadId := Nat

/-- The external runtime object; in this model a runtime is identified by
the address stored in the pointer that references it. -/
abbrev Runtime := Nat

/-- A wrapper around a raw pointer to a runtime object (the source wraps a
bare `*const Runtime`); it carries only the address. -/
structure ThreadRuntimeRef where
  ptr : Runtime

deriving instance DecidableEq, Repr for ThreadRuntimeRef

/-- The registry mapping from thread identities to runtime references; the
hash map of the source is modelled as an association list. -/
abbrev RegMap := List (ThreadId × ThreadRuntimeRef)

/-- Lookup of a key in the registry mapping. -/
def RegMap.get? : RegMap → ThreadId → Option ThreadRuntimeRef
  | [], _ => none
  | (k, v) :: rest, t => if k = t then some v else RegMap.get? rest t

/-- Insertion into the registry mapping; an existing entry for the key is
replaced in place (last write wins), as hash-map insertion does. -/
def RegMap.insert : RegMap → ThreadId → ThreadRuntimeRef → RegMap
  | [], t, h => [(t, h)]
  | (k, v) :: rest, t, h =>
    if k = t then (t, h) :: rest else (k, v) :: RegMap.insert rest t h

/-- The keys of the registry mapping. -/
def RegMap.keys (m : RegMap) : List ThreadId := m.map Prod.fst

/-- The readonly registry which can be shared across threads. -/
structure SharedRegistry where
  registry : RegMap

deriving instance DecidableEq for SharedRegistry

/-- Get the current runtime from the registry: look up the identity of the
calling thread and dereference the stored pointer. -/
def SharedRegistry.get_current (self : SharedRegistry) (current : ThreadId) : Option Runtime :=
  (RegMap.get? self.registry current).map (fun runtime => runtime.ptr)

/-- The operations the shared registry exposes after construction. -/
inductive RegistryOp where
  | getCurrent (tid : ThreadId)

/-- Run one operation on a shared registry, returning the state after the
call together with the result of the call. -/
def SharedRegistry.run (self : SharedRegistry) : RegistryOp → SharedRegistry × Option Runtime
  | RegistryOp.getCurrent tid => (self, self.get_current tid)

/-- The shared state behind a registry builder: the guarded mapping together
with the strong count of its shared (Arc) ownership and the poison flag of
the guarding lock. -/
structure SharedRegistryBuilder where
  registry : RegMap
  strongCount : Nat
  poisoned : Bool

deriving instance DecidableEq for SharedRegistryBuilder

/-- Creates a new builder: empty mapping, a single holder, lock not
poisoned. -/
def SharedRegistryBuilder.new : SharedRegistryBuilder :=
  { registry := [], strongCount := 1, poisoned := false }

/-- Cloning the builder clones the shared handle: the strong count of the
shared mapping increases by one and the mapping itself is unchanged. -/
def SharedRegistryBuilder.clone (b : SharedRegistryBuilder) : SharedRegistryBuilder :=
  { b with strongCount := b.strongCount + 1 }

/-- Result of a register call: either the updated shared state, or a fault,
which models the panic of the unwrap on a poisoned lock. -/
inductive RegisterResult where
  | ok (b : SharedRegistryBuilder)
  | fault

deriving instance DecidableEq for RegisterResult

/-- Register a runtime into the registry under the identity of the calling
thread; unwrapping the lock result faults when the lock is poisoned. -/
def SharedRegistryBuilder.register (b : SharedRegistryBuilder) (current : ThreadId)
    (runtime : ThreadRuntimeRef) : RegisterResult :=
  if b.poisoned then RegisterResult.fault
  else RegisterResult.ok { b with registry := RegMap.insert b.registry current runtime }

/-- Build the shared registry: unwrapping the shared handle succeeds only
when the strong count is one, and taking the lock apart succeeds only when
it is not poisoned; either failure is surfaced as absence. -/
def SharedRegistryBuilder.build (b : SharedRegistryBuilder) : Option SharedRegistry :=
  if b.strongCount = 1 then
    if b.poisoned then none
    else some { registry := b.registry }
  else none

/-- Result of build in a debug build, where the debug assertion on the
strong count runs before the unwrap is attempted. -/
inductive BuildDebugResult where
  | assertFailed
  | returned (r : Option SharedRegistry)

deriving instance DecidableEq for BuildDebugResult

/-- Build in a debug build: the debug assertion that the strong count equals
one fires before the unwrap is attempted; only when it passes does the
release-mode body run. -/
def SharedRegistryBuilder.buildDebug (b : SharedRegistryBuilder) : BuildDebugResult :=
  if b.strongCount = 1 then BuildDebugResult.returned b.build
  else BuildDebugResult.assertFailed

/-- Sequence a register result with a continuation on the updated state; a
fault propagates. -/
def RegisterResult.bind (r : RegisterResult)
    (f : SharedRegistryBuilder → RegisterResult) : RegisterResult :=
  match r with
  | RegisterResult.ok b => f b
  | RegisterResult.fault => RegisterResult.fault

/-- Run a sequence of register calls, each tagged with the identity of the
thread making it. -/
def SharedRegistryBuilder.registerAll (b : SharedRegistryBuilder) :
    List (ThreadId × ThreadRuntimeRef) → RegisterResult
  | [] => RegisterResult.ok b
  | (t, h) :: rest =>
    RegisterResult.bind (b.register t h) (fun b1 => b1.registerAll rest)

@[simp]
theorem RegisterResult.bind_ok (b : SharedRegistryBuilder)
    (f : SharedRegistryBuilder → RegisterResult) :
    RegisterResult.bind (RegisterResult.ok b) f = f b := rfl

@[simp]
theorem RegisterResult.bind_fault (f : SharedRegistryBuilder → RegisterResult) :
    RegisterResult.bind RegisterResult.fault f = RegisterResult.fault := rfl

theorem RegMap.get_insert_self (m : RegMap) (k : ThreadId) (v : ThreadRuntimeRef) :
    RegMap.get? (RegMap.insert m k v) k = some v := by
  induction m with
  | nil => simp [RegMap.insert, RegMap.get?]
  | cons p rest ih =>
    obtain ⟨a, w⟩ := p
    by_cases hak : a = k
    · subst hak
      simp [RegMap.insert, RegMap.get?]
    · simp [RegMap.insert, RegMap.get?, hak, ih]

theorem RegMap.get_insert_ne (m : RegMap) (k t : ThreadId) (v : ThreadRuntimeRef)
    (hne : t ≠ k) :
    RegMap.get? (RegMap.insert m k v) t = RegMap.get? m t := by
  induction m with
  | nil => simp [RegMap.insert, RegMap.get?, Ne.symm hne]
  | cons p rest ih =>
    obtain ⟨a, w⟩ := p
    by_cases hak : a = k
    · subst hak
      simp [RegMap.insert, RegMap.get?, Ne.symm hne]
    · by_cases hat : a = t
      · subst hat
        simp [RegMap.insert, RegMap.get?, hak]
      · simp [RegMap.insert, RegMap.get?, hak, hat, ih]

theorem RegMap.get_eq_none_of_not_mem_keys (m : RegMap) (t : ThreadId)
    (h : ¬ t ∈ RegMap.keys m) :
    RegMap.get? m t = none := by
  induction m with
  | nil => rfl
  | cons p rest ih =>
    obtain ⟨a, w⟩ := p
    simp only [RegMap.keys, List.map_cons, List.mem_cons, not_or] at h
    have hat : a ≠ t := fun hh => h.1 hh.symm
    simp only [RegMap.get?, if_neg hat]
    exact ih h.2

theorem RegMap.mem_keys_of_get_some (m : RegMap) (t : ThreadId) (h : ThreadRuntimeRef)
    (hg : RegMap.get? m t = some h) : t ∈ RegMap.keys m := by
  by_contra hc
  rw [RegMap.get_eq_none_of_not_mem_keys m t hc] at hg
  exact Option.noConfusion hg

theorem RegMap.keys_insert_of_not_mem (m : RegMap) (k : ThreadId) (v : ThreadRuntimeRef)
    (h : ¬ k ∈ RegMap.keys m) :
    RegMap.keys (RegMap.insert m k v) = RegMap.keys m ++ [k] := by
  induction m with
  | nil => rfl
  | cons p rest ih =>
    obtain ⟨a, w⟩ := p
    simp only [RegMap.keys, List.map_cons, List.mem_cons, not_or] at h
    have hak : a ≠ k := fun hh => h.1 hh.symm
    simp only [RegMap.insert, if_neg hak, RegMap.keys, List.map_cons, List.cons_append,
      List.cons.injEq, true_and]
    exact ih h.2

theorem RegMap.keys_insert_of_mem (m : RegMap) (k : ThreadId) (v : ThreadRuntimeRef)
    (h : k ∈ RegMap.keys m) :
    RegMap.keys (RegMap.insert m k v) = RegMap.keys m := by
  induction m with
  | nil => simp [RegMap.keys] at h
  | cons p rest ih =>
    obtain ⟨a, w⟩ := p
    by_cases hak : a = k
    · subst hak
      simp [RegMap.insert, RegMap.keys]
    · simp only [RegMap.keys, List.map_cons, List.mem_cons] at h
      rcases h with h | h
      · exact absurd h.symm hak
      · simp only [RegMap.insert, if_neg hak, RegMap.keys, List.map_cons, List.cons.injEq,
          true_and]
        exact ih h

theorem RegMap.keys_insert_nodup (m : RegMap) (k : ThreadId) (v : ThreadRuntimeRef)
    (h : (RegMap.keys m).Nodup) :
    (RegMap.keys (RegMap.insert m k v)).Nodup := by
  by_cases hk : k ∈ RegMap.keys m
  · rw [RegMap.keys_insert_of_mem m k v hk]
    exact h
  · rw [RegMap.keys_insert_of_not_mem m k v hk]
    simp only [List.nodup_append, List.nodup_singleton, true_and]
    exact ⟨h, by simpa [List.disjoint_singleton] using hk⟩

theorem RegMap.length_insert_of_not_mem (m : RegMap) (k : ThreadId) (v : ThreadRuntimeRef)
    (h : ¬ k ∈ RegMap.keys m) :
    (RegMap.insert m k v).length = m.length + 1 := by
  induction m with
  | nil => rfl
  | cons p rest ih =>
    obtain ⟨a, w⟩ := p
    simp only [RegMap.keys, List.map_cons, List.mem_cons, not_or] at h
    have hak : a ≠ k := fun hh => h.1 hh.symm
    simp only [RegMap.insert, if_neg hak, List.length_cons]
    rw [ih h.2]

theorem register_ok_inv (b b1 : SharedRegistryBuilder) (t : ThreadId) (h : ThreadRuntimeRef)
    (hr : b.register t h = RegisterResult.ok b1) :
    b.poisoned = false ∧ b1 = { b with registry := RegMap.insert b.registry t h } := by
  cases hp : b.poisoned with
  | true => simp [SharedRegistryBuilder.register, hp] at hr
  | false =>
    simp only [SharedRegistryBuilder.register, hp, if_neg Bool.false_ne_true,
      RegisterResult.ok.injEq] at hr
    exact ⟨rfl, hr.symm⟩

theorem build_some_inv (b : SharedRegistryBuilder) (reg : SharedRegistry)
    (hb : b.build = some reg) : reg.registry = b.registry := by
  by_cases h1 : b.strongCount = 1
  · cases hp : b.poisoned with
    | true => simp [SharedRegistryBuilder.build, h1, hp] at hb
    | false =>
      simp only [SharedRegistryBuilder.build, h1, if_true, hp, Bool.false_eq_true, if_false,
        Option.some.injEq] at hb
      rw [← hb]
  · simp [SharedRegistryBuilder.build, h1] at hb

theorem get_registerAll_not_mem (l : List (ThreadId × ThreadRuntimeRef))
    (b b2 : SharedRegistryBuilder) (t : ThreadId)
    (hr : b.registerAll l = RegisterResult.ok b2) (ht : ¬ t ∈ l.map Prod.fst) :
    RegMap.get? b2.registry t = RegMap.get? b.registry t := by
  induction l generalizing b with
  | nil =>
    simp only [SharedRegistryBuilder.registerAll, RegisterResult.ok.injEq] at hr
    rw [hr]
  | cons q rest ih =>
    obtain ⟨a, w⟩ := q
    simp only [List.map_cons, List.mem_cons, not_or] at ht
    simp only [SharedRegistryBuilder.registerAll] at hr
    cases hreg : b.register a w with
    | fault => rw [hreg] at hr; simp at hr
    | ok b1 =>
      rw [hreg] at hr
      simp only [RegisterResult.bind_ok] at hr
      obtain ⟨_, hb1⟩ := register_ok_inv b b1 a w hreg
      rw [ih b1 hr ht.2, hb1]
      exact RegMap.get_insert_ne b.registry a t w ht.1

theorem get_registerAll_mem (l : List (ThreadId × ThreadRuntimeRef))
    (b b2 : SharedRegistryBuilder)
    (hnd : (l.map Prod.fst).Nodup)
    (hr : b.registerAll l = RegisterResult.ok b2) :
    ∀ p ∈ l, RegMap.get? b2.registry p.1 = some p.2 := by
  induction l generalizing b with
  | nil => intro p hp; simp at hp
  | cons q rest ih =>
    obtain ⟨a, w⟩ := q
    simp only [List.map_cons, List.nodup_cons] at hnd
    simp only [SharedRegistryBuilder.registerAll] at hr
    cases hreg : b.register a w with
    | fault => rw [hreg] at hr; simp at hr
    | ok b1 =>
      rw [hreg] at hr
      simp only [RegisterResult.bind_ok] at hr
      obtain ⟨_, hb1⟩ := register_ok_inv b b1 a w hreg
      intro p hp
      simp only [List.mem_cons] at hp
      rcases hp with hp | hp
      · subst hp
        rw [get_registerAll_not_mem rest b1 b2 a hr hnd.1, hb1]
        exact RegMap.get_insert_self b.registry a w
      · exact ih b1 hnd.2 hr p hp

theorem mem_of_get_registerAll (l : List (ThreadId × ThreadRuntimeRef))
    (b b2 : SharedRegistryBuilder) (t : ThreadId) (h : ThreadRuntimeRef)
    (hr : b.registerAll l = RegisterResult.ok b2)
    (hget : RegMap.get? b2.registry t = some h) :
    (t, h) ∈ l ∨ RegMap.get? b.registry t = some h := by
  induction l generalizing b with
  | nil =>
    simp only [SharedRegistryBuilder.registerAll, RegisterResult.ok.injEq] at hr
    right
    rw [hr]
    exact hget
  | cons q rest ih =>
    obtain ⟨a, w⟩ := q
    simp only [SharedRegistryBuilder.registerAll] at hr
    cases hreg : b.register a w with
    | fault => rw [hreg] at hr; simp at hr
    | ok b1 =>
      rw [hreg] at hr
      simp only [RegisterResult.bind_ok] at hr
      obtain ⟨_, hb1⟩ := register_ok_inv b b1 a w hreg
      rcases ih b1 hr with hmem | hb1get
      · exact Or.inl (List.mem_cons_of_mem _ hmem)
      · rw [hb1] at hb1get
        by_cases hta : t = a
        · subst hta
          rw [RegMap.get_insert_self b.registry t w] at hb1get
          left
          rw [Option.some.injEq] at hb1get
          rw [← hb1get]
          exact List.mem_cons_self _ _
        · right
          rw [← RegMap.get_insert_ne b.registry a t w hta]
          exact hb1get

theorem length_registerAll (l : List (ThreadId × ThreadRuntimeRef))
    (b b2 : SharedRegistryBuilder)
    (hnd : (l.map Prod.fst).Nodup)
    (hfresh : ∀ t ∈ l.map Prod.fst, ¬ t ∈ RegMap.keys b.registry)
    (hr : b.registerAll l = RegisterResult.ok b2) :
    b2.registry.length = b.registry.length + l.length := by
  induction l generalizing b with
  | nil =>
    simp only [SharedRegistryBuilder.registerAll, RegisterResult.ok.injEq] at hr
    rw [hr]
    rfl
  | cons q rest ih =>
    obtain ⟨a, w⟩ := q
    simp only [List.map_cons, List.nodup_cons] at hnd
    simp only [List.map_cons, List.mem_cons] at hfresh
    have hafresh : ¬ a ∈ RegMap.keys b.registry := hfresh a (Or.inl rfl)
    simp only [SharedRegistryBuilder.registerAll] at hr
    cases hreg : b.register a w with
    | fault => rw [hreg] at hr; simp at hr
    | ok b1 =>
      rw [hreg] at hr
      simp only [RegisterResult.bind_ok] at hr
      obtain ⟨_, hb1⟩ := register_ok_inv b b1 a w hreg
      have hfresh1 : ∀ t ∈ rest.map Prod.fst, ¬ t ∈ RegMap.keys b1.registry := by
        intro t htm
        rw [hb1]
        have hta : t ≠ a := fun hh => hnd.1 (hh ▸ htm)
        rw [RegMap.keys_insert_of_not_mem b.registry a w hafresh]
        simp only [List.mem_append, List.mem_singleton, not_or]
        exact ⟨hfresh t (Or.inr htm), hta⟩
      rw [ih b1 hnd.2 hfresh1 hr, hb1]
      simp only [List.length_cons]
      rw [RegMap.length_insert_of_not_mem b.registry a w hafresh]
      omega

/-- C1: for a builder state held by at least one holder, build yields
absence exactly when another holder of the shared mapping still exists
(strong count above one) or the guarding lock is poisoned; in particular
building right after cloning the builder yields absence. -/
theorem build_absence_iff (b : SharedRegistryBuilder) (h : 1 ≤ b.strongCount) :
    (b.build = none ↔ 1 < b.strongCount ∨ b.poisoned = true) ∧ b.clone.build = none := by
  constructor
  · constructor
    · intro hn
      by_cases h1 : b.strongCount = 1
      · cases hp : b.poisoned with
        | false => simp [SharedRegistryBuilder.build, h1, hp] at hn
        | true => exact Or.inr rfl
      · exact Or.inl (by omega)
    · intro hc
      rcases hc with hc | hc
      · have hne : b.strongCount ≠ 1 := by omega
        simp [SharedRegistryBuilder.build, hne]
      · simp [SharedRegistryBuilder.build, hc]
  · have hne : ¬ (b.strongCount + 1 = 1) := by omega
    simp [SharedRegistryBuilder.clone, SharedRegistryBuilder.build, hne]

/-- Witness for C1 at the fresh builder. -/
theorem build_absence_iff_witness :
    (SharedRegistryBuilder.new.build = none ↔
      1 < SharedRegistryBuilder.new.strongCount ∨ SharedRegistryBuilder.new.poisoned = true) ∧
    SharedRegistryBuilder.new.clone.build = none :=
  build_absence_iff SharedRegistryBuilder.new (by decide)

/-- C2: if a thread registers a handle, the remaining register calls before
finalization come from other threads, and build succeeds, then the thread's
own lookup on the resulting registry returns exactly the handle it
registered. -/
theorem get_current_after_register (b b1 b2 : SharedRegistryBuilder) (t : ThreadId)
    (h : ThreadRuntimeRef) (l : List (ThreadId × ThreadRuntimeRef)) (reg : SharedRegistry)
    (hreg : b.register t h = RegisterResult.ok b1)
    (hrest : b1.registerAll l = RegisterResult.ok b2)
    (hlast : ¬ t ∈ l.map Prod.fst)
    (hb : b2.build = some reg) :
    reg.get_current t = some h.ptr := by
  obtain ⟨hp, hb1⟩ := register_ok_inv b b1 t h hreg
  have h2 : RegMap.get? b2.registry t = RegMap.get? b1.registry t :=
    get_registerAll_not_mem l b1 b2 t hrest hlast
  have h1 : RegMap.get? b1.registry t = some h := by
    rw [hb1]
    exact RegMap.get_insert_self b.registry t h
  unfold SharedRegistry.get_current
  rw [build_some_inv b2 reg hb, h2, h1]
  rfl

/-- Witness for C2: thread 0 registers address 7, thread 1 then registers
address 9, build succeeds, and thread 0 reads back 7. -/
theorem get_current_after_register_witness :
    SharedRegistry.get_current
      { registry := [((0 : ThreadId), ThreadRuntimeRef.mk 7),
                     ((1 : ThreadId), ThreadRuntimeRef.mk 9)] } 0 = some 7 :=
  get_current_after_register SharedRegistryBuilder.new
    { registry := [((0 : ThreadId), ThreadRuntimeRef.mk 7)], strongCount := 1, poisoned := false }
    { registry := [((0 : ThreadId), ThreadRuntimeRef.mk 7),
                   ((1 : ThreadId), ThreadRuntimeRef.mk 9)], strongCount := 1, poisoned := false }
    0 (ThreadRuntimeRef.mk 7) [((1 : ThreadId), ThreadRuntimeRef.mk 9)]
    { registry := [((0 : ThreadId), ThreadRuntimeRef.mk 7),
                   ((1 : ThreadId), ThreadRuntimeRef.mk 9)] }
    rfl rfl (by decide) rfl

/-- C3: registering once from each of N distinct thread identities starting
from a fresh builder and then building successfully yields a registry whose
mapping is exactly the accumulated mapping of the builder, holds exactly N
entries, and answers every registrant with its own handle. -/
theorem build_exact_mapping (l : List (ThreadId × ThreadRuntimeRef))
    (b : SharedRegistryBuilder) (reg : SharedRegistry)
    (hnd : (l.map Prod.fst).Nodup)
    (hall : SharedRegistryBuilder.new.registerAll l = RegisterResult.ok b)
    (hb : b.build = some reg) :
    reg.registry = b.registry ∧ reg.registry.length = l.length ∧
    ∀ p ∈ l, reg.get_current p.1 = some p.2.ptr := by
  have hmap := build_some_inv b reg hb
  refine ⟨hmap, ?_, ?_⟩
  · rw [hmap]
    have hlen := length_registerAll l SharedRegistryBuilder.new b hnd
      (by simp [SharedRegistryBuilder.new, RegMap.keys]) hall
    simpa [SharedRegistryBuilder.new] using hlen
  · intro p hp
    have hg := get_registerAll_mem l SharedRegistryBuilder.new b hnd hall p hp
    unfold SharedRegistry.get_current
    rw [hmap, hg]
    rfl

/-- Witness for C3: two registrants, two entries, each reads back its own
handle. -/
theorem build_exact_mapping_witness :
    SharedRegistry.registry
      { registry := [((0 : ThreadId), ThreadRuntimeRef.mk 3),
                     ((1 : ThreadId), ThreadRuntimeRef.mk 4)] } =
      SharedRegistryBuilder.registry
        { registry := [((0 : ThreadId), ThreadRuntimeRef.mk 3),
                       ((1 : ThreadId), ThreadRuntimeRef.mk 4)],
          strongCount := 1, poisoned := false } ∧
    (SharedRegistry.registry
      { registry := [((0 : ThreadId), ThreadRuntimeRef.mk 3),
                     ((1 : ThreadId), ThreadRuntimeRef.mk 4)] }).length = 2 ∧
    SharedRegistry.get_current
      { registry := [((0 : ThreadId), ThreadRuntimeRef.mk 3),
                     ((1 : ThreadId), ThreadRuntimeRef.mk 4)] } 1 = some 4 :=
  ⟨(build_exact_mapping
      [((0 : ThreadId), ThreadRuntimeRef.mk 3), ((1 : ThreadId), ThreadRuntimeRef.mk 4)]
      { registry := [((0 : ThreadId), ThreadRuntimeRef.mk 3),
                     ((1 : ThreadId), ThreadRuntimeRef.mk 4)],
        strongCount := 1, poisoned := false }
      { registry := [((0 : ThreadId), ThreadRuntimeRef.mk 3),
                     ((1 : ThreadId), ThreadRuntimeRef.mk 4)] }
      (by decide) rfl rfl).1,
   (build_exact_mapping
      [((0 : ThreadId), ThreadRuntimeRef.mk 3), ((1 : ThreadId), ThreadRuntimeRef.mk 4)]
      { registry := [((0 : ThreadId), ThreadRuntimeRef.mk 3),
                     ((1 : ThreadId), ThreadRuntimeRef.mk 4)],
        strongCount := 1, poisoned := false }
      { registry := [((0 : ThreadId), ThreadRuntimeRef.mk 3),
                     ((1 : ThreadId), ThreadRuntimeRef.mk 4)] }
      (by decide) rfl rfl).2.1,
   (build_exact_mapping
      [((0 : ThreadId), ThreadRuntimeRef.mk 3), ((1 : ThreadId), ThreadRuntimeRef.mk 4)]
      { registry := [((0 : ThreadId), ThreadRuntimeRef.mk 3),
                     ((1 : ThreadId), ThreadRuntimeRef.mk 4)],
        strongCount := 1, poisoned := false }
      { registry := [((0 : ThreadId), ThreadRuntimeRef.mk 3),
                     ((1 : ThreadId), ThreadRuntimeRef.mk 4)] }
      (by decide) rfl rfl).2.2 ((1 : ThreadId), ThreadRuntimeRef.mk 4) (by decide)⟩

/-- C4: on a registry reachable by a sequence of register calls from a
fresh builder followed by a successful build, any handle that a thread's
lookup returns was inserted by a register call made by that same thread. -/
theorem get_current_own_registration (l : List (ThreadId × ThreadRuntimeRef))
    (b : SharedRegistryBuilder) (reg : SharedRegistry) (t : ThreadId) (r : Runtime)
    (hall : SharedRegistryBuilder.new.registerAll l = RegisterResult.ok b)
    (hb : b.build = some reg)
    (hget : reg.get_current t = some r) :
    ∃ h : ThreadRuntimeRef, h.ptr = r ∧ (t, h) ∈ l := by
  unfold SharedRegistry.get_current at hget
  rw [build_some_inv b reg hb] at hget
  cases hg : RegMap.get? b.registry t with
  | none => rw [hg] at hget; exact Option.noConfusion hget
  | some h =>
    rw [hg] at hget
    have hptr : h.ptr = r := by
      have hmap : some h.ptr = some r := hget
      exact Option.some.inj hmap
    refine ⟨h, hptr, ?_⟩
    rcases mem_of_get_registerAll l SharedRegistryBuilder.new b t h hall hg with hm | hnew
    · exact hm
    · exact Option.noConfusion hnew

/-- Witness for C4: on the registry built from one registration by thread 0
of address 7, the handle thread 0 reads back was registered by thread 0. -/
theorem get_current_own_registration_witness :
    ∃ h : ThreadRuntimeRef, h.ptr = 7 ∧
      ((0 : ThreadId), h) ∈ [((0 : ThreadId), ThreadRuntimeRef.mk 7)] :=
  get_current_own_registration [((0 : ThreadId), ThreadRuntimeRef.mk 7)]
    { registry := [((0 : ThreadId), ThreadRuntimeRef.mk 7)], strongCount := 1, poisoned := false }
    { registry := [((0 : ThreadId), ThreadRuntimeRef.mk 7)] }
    0 7 rfl rfl rfl

/-- C5: register inserts the handle under the calling thread identity,
preserves the at-most-one-entry-per-identity invariant, and a second
registration from the same identity overwrites the first: afterwards only
the latest handle is observable and the key set is unchanged. -/
theorem register_last_write_wins (b b1 b2 : SharedRegistryBuilder) (t : ThreadId)
    (h1 h2 : ThreadRuntimeRef)
    (hnd : (RegMap.keys b.registry).Nodup)
    (hr1 : b.register t h1 = RegisterResult.ok b1)
    (hr2 : b1.register t h2 = RegisterResult.ok b2) :
    b1.registry = RegMap.insert b.registry t h1 ∧
    (RegMap.keys b1.registry).Nodup ∧ (RegMap.keys b2.registry).Nodup ∧
    RegMap.get? b2.registry t = some h2 ∧
    RegMap.keys b2.registry = RegMap.keys b1.registry := by
  obtain ⟨hp1, hb1⟩ := register_ok_inv b b1 t h1 hr1
  obtain ⟨hp2, hb2⟩ := register_ok_inv b1 b2 t h2 hr2
  have hb1r : b1.registry = RegMap.insert b.registry t h1 := by rw [hb1]
  have hb2r : b2.registry = RegMap.insert b1.registry t h2 := by rw [hb2]
  have hnd1 : (RegMap.keys b1.registry).Nodup := by
    rw [hb1r]
    exact RegMap.keys_insert_nodup b.registry t h1 hnd
  have htmem : t ∈ RegMap.keys b1.registry := by
    rw [hb1r]
    exact RegMap.mem_keys_of_get_some _ t h1 (RegMap.get_insert_self b.registry t h1)
  refine ⟨hb1r, hnd1, ?_, ?_, ?_⟩
  · rw [hb2r]
    exact RegMap.keys_insert_nodup b1.registry t h2 hnd1
  · rw [hb2r]
    exact RegMap.get_insert_self b1.registry t h2
  · rw [hb2r]
    exact RegMap.keys_insert_of_mem b1.registry t h2 htmem

/-- Witness for C5: thread 0 registers address 1 and then address 2 on a
fresh builder; only address 2 is observable and the key set is unchanged. -/
theorem register_last_write_wins_witness :
    SharedRegistryBuilder.registry
      { registry := [((0 : ThreadId), ThreadRuntimeRef.mk 1)],
        strongCount := 1, poisoned := false } =
      RegMap.insert SharedRegistryBuilder.new.registry 0 (ThreadRuntimeRef.mk 1) ∧
    (RegMap.keys [((0 : ThreadId), ThreadRuntimeRef.mk 1)]).Nodup ∧
    (RegMap.keys [((0 : ThreadId), ThreadRuntimeRef.mk 2)]).Nodup ∧
    RegMap.get? [((0 : ThreadId), ThreadRuntimeRef.mk 2)] 0 = some (ThreadRuntimeRef.mk 2) ∧
    RegMap.keys [((0 : ThreadId), ThreadRuntimeRef.mk 2)] =
      RegMap.keys [((0 : ThreadId), ThreadRuntimeRef.mk 1)] :=
  register_last_write_wins SharedRegistryBuilder.new
    { registry := [((0 : ThreadId), ThreadRuntimeRef.mk 1)], strongCount := 1, poisoned := false }
    { registry := [((0 : ThreadId), ThreadRuntimeRef.mk 2)], strongCount := 1, poisoned := false }
    0 (ThreadRuntimeRef.mk 1) (ThreadRuntimeRef.mk 2) (by decide) rfl rfl

/-- C6: a lookup by a thread identity absent from the registry returns
absence, a plain Option miss rather than a fault. -/
theorem get_current_miss_none (reg : SharedRegistry) (t : ThreadId)
    (h : ¬ t ∈ RegMap.keys reg.registry) :
    reg.get_current t = none := by
  unfold SharedRegistry.get_current
  rw [RegMap.get_eq_none_of_not_mem_keys reg.registry t h]
  rfl

/-- Witness for C6: thread 0 never registered in a registry holding only
thread 1, so its lookup misses. -/
theorem get_current_miss_none_witness :
    SharedRegistry.get_current
      { registry := [((1 : ThreadId), ThreadRuntimeRef.mk 5)] } 0 = none :=
  get_current_miss_none { registry := [((1 : ThreadId), ThreadRuntimeRef.mk 5)] } 0 (by decide)

/-- C7: every operation the shared registry exposes leaves its mapping
identical to what it was before the call; lookups never mutate the
registry. -/
theorem run_preserves_registry (reg : SharedRegistry) (op : RegistryOp) :
    (reg.run op).1 = reg := by
  cases op with
  | getCurrent t => rfl

/-- C8: a fresh builder holds the empty mapping, finalizing it without any
register call succeeds with an empty registry, and every thread identity
then looks up to absence. -/
theorem new_builder_empty :
    SharedRegistryBuilder.new.registry = [] ∧
    SharedRegistryBuilder.new.build = some { registry := [] } ∧
    ∀ t : ThreadId, SharedRegistry.get_current { registry := [] } t = none :=
  ⟨rfl, rfl, fun _ => rfl⟩

/-- C9: in a debug build, the debug assertion on the strong count fires
before the absence path is reached: building right after a clone while the
original is alive, or with any strong count other than one, faults with an
assertion failure. -/
theorem buildDebug_assert_fires (b b2 : SharedRegistryBuilder)
    (h : 1 ≤ b.strongCount) (h2 : b2.strongCount ≠ 1) :
    b.clone.buildDebug = BuildDebugResult.assertFailed ∧
    b2.buildDebug = BuildDebugResult.assertFailed := by
  constructor
  · have hne : ¬ (b.strongCount + 1 = 1) := by omega
    simp [SharedRegistryBuilder.clone, SharedRegistryBuilder.buildDebug, hne]
  · simp [SharedRegistryBuilder.buildDebug, h2]

/-- Witness for C9 at the fresh builder and its clone. -/
theorem buildDebug_assert_fires_witness :
    SharedRegistryBuilder.new.clone.buildDebug = BuildDebugResult.assertFailed ∧
    (SharedRegistryBuilder.clone SharedRegistryBuilder.new).buildDebug =
      BuildDebugResult.assertFailed :=
  buildDebug_assert_fires SharedRegistryBuilder.new
    (SharedRegistryBuilder.clone SharedRegistryBuilder.new) (by decide) (by decide)

/-- C10: when the guarding lock is poisoned, register faults (the unwrap
panics) instead of returning or signalling absence, while build surfaces
the same poisoning as absence. -/
theorem register_fault_on_poison (b : SharedRegistryBuilder) (t : ThreadId)
    (h : ThreadRuntimeRef) (hp : b.poisoned = true) :
    b.register t h = RegisterResult.fault ∧ b.build = none := by
  constructor
  · simp [SharedRegistryBuilder.register, hp]
  · simp [SharedRegistryBuilder.build, hp]

/-- Witness for C10 at a poisoned builder. -/
theorem register_fault_on_poison_witness :
    SharedRegistryBuilder.register
      { registry := [], strongCount := 1, poisoned := true } 0 (ThreadRuntimeRef.mk 0) =
      RegisterResult.fault ∧
    SharedRegistryBuilder.build { registry := [], strongCount := 1, poisoned := true } = none :=
  register_fault_on_poison
    { registry := [], strongCount := 1, poisoned := true } 0 (ThreadRuntimeRef.mk 0) rfl

end Compio
